import Mathlib

set_option maxRecDepth 8000

/-!
Verification of the playlist reconciliation core of hls.js (level-helper):
segment identity matching, continuity offset adjustment, snapshot merging
(full and delta updates) and reload-interval computation.

The implementation file `src/controller/level-helper` is not part of the
available sources; only its unit tests (`tests/unit/controller/level-helper.js`)
are. The operations below are therefore modelled from the specification and
validated against the concrete vectors of that test file.
-/

namespace HlsLevelHelper

/-- A single timed media segment: sequence number, start time (seconds) and
duration (seconds). Times are modelled as exact rationals. -/
structure Fragment where
  sn : Int
  start : ℚ
  duration : ℚ
deriving DecidableEq

/-- One polled snapshot of the live playlist window (LevelDetails).
Delta updates carry `none` placeholders for the leading skipped segments. -/
structure LevelDetails where
  startSN : Int
  endSN : Int
  fragments : List (Option Fragment)
  skippedSegments : Nat := 0
  targetduration : ℚ := 0
  averagetargetduration : Option ℚ := none
  updated : Bool := true
  deltaUpdateFailed : Option Bool := none
deriving DecidableEq

/-- Lookup of the segment with a given sequence number: translate the
sequence number into an index using the snapshot's own `startSN`. -/
def fragAtSN (d : LevelDetails) (sn : Int) : Option Fragment :=
  if sn < d.startSN then none
  else (d.fragments.get? (sn - d.startSN).toNat).bind id

/-- Visit `n` consecutive sequence numbers from `sn` upward, collecting the
pairs (old segment, new segment) present in both snapshots, in order. -/
def visitPairs (old nw : LevelDetails) : Nat → Int → List (Fragment × Fragment)
  | 0, _ => []
  | Nat.succ n, sn =>
    match fragAtSN old sn, fragAtSN nw sn with
    | some of, some nf => (of, nf) :: visitPairs old nw n (sn + 1)
    | _, _ => visitPairs old nw n (sn + 1)

/-- Modelled from the spec: `mapFragmentIntersection` of
`src/controller/level-helper` (implementation absent from the sources).
Computes the intersection window
`[max(old.startSN, new.startSN), min(old.endSN, new.endSN)]` inclusive on
sequence number; when the window is nonempty it visits the matched
(oldSegment, newSegment) pairs index by index from the low bound to the high
bound, in ascending sequence-number order; when the window is empty no pair
is visited. The visitor is modelled as the returned list of visited pairs. -/
def mapFragmentIntersection (old nw : LevelDetails) : List (Fragment × Fragment) :=
  let lo := max old.startSN nw.startSN
  let hi := min old.endSN nw.endSN
  if lo ≤ hi then visitPairs old nw (hi + 1 - lo).toNat lo else []

/-- Add a single time offset to the start of every segment of a snapshot. -/
def addSliding (d : LevelDetails) (offset : ℚ) : LevelDetails :=
  { d with fragments := d.fragments.map (Option.map fun f => { f with start := f.start + offset }) }

/-- Modelled from the spec: `adjustSliding` of `src/controller/level-helper`
(implementation absent from the sources). Invokes the Matcher; on the first
matched pair computes `offset = oldSegment.start - newSegment.start` and adds
that single offset to the start of every segment of the new snapshot; when no
pair matches the new snapshot is left unchanged. -/
def adjustSliding (old nw : LevelDetails) : LevelDetails :=
  match mapFragmentIntersection old nw with
  | [] => nw
  | (of, nf) :: _ => addSliding nw (of.start - nf.start)

/-- Timing pass of the Merger: for each segment whose sequence number is
inside the shared window (at most `hi`) take the old snapshot's start time;
for each trailing segment beyond the old snapshot's coverage accumulate
`start[i] = start[i-1] + duration[i-1]`. -/
def mergeStarts (old : LevelDetails) (hi : Int) :
    Int → Option Fragment → List (Option Fragment) → List (Option Fragment)
  | _, _, [] => []
  | sn, prev, none :: rest => none :: mergeStarts old hi (sn + 1) prev rest
  | sn, prev, some f :: rest =>
    let f' :=
      if sn ≤ hi then
        match fragAtSN old sn with
        | some og => { f with start := og.start }
        | none => f
      else
        match prev with
        | some p => { f with start := p.start + p.duration }
        | none => f
    some f' :: mergeStarts old hi (sn + 1) (some f') rest

/-- Continuity step of the Merger on a (reconstructed) snapshot: if the new
window begins before the old one, or the windows are disjoint, no timing
change is applied; otherwise overlapping segments take the old snapshot's
start times and trailing segments are extrapolated by accumulation. -/
def mergeTiming (old nw : LevelDetails) : LevelDetails :=
  if nw.startSN < old.startSN then nw
  else
    let hi := min old.endSN nw.endSN
    if nw.startSN ≤ hi then
      { nw with fragments := mergeStarts old hi nw.startSN none nw.fragments }
    else nw

/-- The old snapshot's candidate segments for `n` consecutive placeholder
positions starting at sequence number `sn`. -/
def phList (old : LevelDetails) : Int → Nat → List (Option Fragment)
  | _, 0 => []
  | sn, Nat.succ n => fragAtSN old sn :: phList old (sn + 1) n

/-- The old snapshot's candidate segments for the skipped prefix of a delta
update: position `i` of the prefix stands for sequence number `startSN + i`. -/
def placeholdersOf (old nw : LevelDetails) : List (Option Fragment) :=
  phList old nw.startSN nw.skippedSegments

/-- Modelled from the spec: `mergeDetails` of `src/controller/level-helper`
(implementation absent from the sources). Full update (`skippedSegments = 0`):
timing continuity only. Delta update: when every placeholder position is
covered by the old snapshot, copy the old segments into the prefix, set
`deltaUpdateFailed := some false` and establish timing continuity; otherwise
set `deltaUpdateFailed := some true`, drop the placeholder positions, keep the
explicitly carried segments with unchanged start times and update `startSN` to
the sequence number of the first surviving segment. Never throws. -/
def mergeDetails (old nw : LevelDetails) : LevelDetails :=
  if nw.skippedSegments = 0 then mergeTiming old nw
  else
    let ph := placeholdersOf old nw
    if ph.all Option.isSome then
      mergeTiming old { nw with
        fragments := ph ++ nw.fragments.drop nw.skippedSegments,
        deltaUpdateFailed := some false }
    else
      { nw with
        deltaUpdateFailed := some true,
        fragments := nw.fragments.drop nw.skippedSegments,
        startSN :=
          match (nw.fragments.drop nw.skippedSegments).head? with
          | some (some f) => f.sn
          | _ => nw.startSN + nw.skippedSegments }

/-- Modelled from the spec: `computeReloadInterval` of
`src/controller/level-helper` (implementation absent from the sources).
Base duration is `averagetargetduration` when truthy, else `targetduration`;
halved when the snapshot is not updated; converted to milliseconds and rounded.
A supplied request latency is subtracted, with the result floored at half of
the unhalved base duration in milliseconds; with no latency no subtraction.
The base duration is `averagetargetduration` when present and truthy
(nonzero), else `targetduration`. -/
def baseDuration (d : LevelDetails) : ℚ :=
  match d.averagetargetduration with
  | some a => if a = 0 then d.targetduration else a
  | none => d.targetduration

/-- Modelled from the spec: the reload interval computation itself; see
`baseDuration` for the base-duration selection. -/
def computeReloadInterval (d : LevelDetails) (lastRequestLatencyMillis : Option ℚ) : ℚ :=
  let base : ℚ := baseDuration d
  let dur := if d.updated then base else base / 2
  let rounded : ℚ := ((round (1000 * dur) : ℤ) : ℚ)
  match lastRequestLatencyMillis with
  | none => rounded
  | some lat => max (rounded - lat) (1000 * base / 2)

/-- Test helper mirrored from the unit tests: a playlist over the given
sequence numbers, fragment `i` starting at `i * 5 + offset` with duration 5. -/
def generatePlaylist (sns : List Int) (offset : ℚ) : LevelDetails :=
  { startSN := sns.head?.getD 0
    endSN := sns.getLast?.getD 0
    fragments := sns.enum.map (fun p => some { sn := p.2, start := (p.1 : ℚ) * 5 + offset, duration := 5 }) }

/-- The successful-delta test vector's new snapshot: 7 skipped segments,
`startSN = 3`, carrying explicit segments 10, 11, 12. -/
def newDeltaOk : LevelDetails :=
  { generatePlaylist [10,11,12] 0 with
    skippedSegments := 7, startSN := 3,
    fragments := List.replicate 7 none ++ (generatePlaylist [10,11,12] 0).fragments }

/-- The failing-delta test vector's new snapshot: 5 skipped segments,
`startSN = 5`, carrying explicit segments 10, 11, 12. -/
def newDeltaFail : LevelDetails :=
  { generatePlaylist [10,11,12] 0 with
    skippedSegments := 5, startSN := 5,
    fragments := List.replicate 5 none ++ (generatePlaylist [10,11,12] 0).fragments }

/-- The entries of a list are consecutive present segments numbered from `sn`. -/
def snFrom : Int → List (Option Fragment) → Bool
  | _, [] => true
  | sn, some f :: rest => f.sn == sn && snFrom (sn + 1) rest
  | _, none :: _ => false

/-- A well-formed full snapshot: nonempty, segments present and consecutively
numbered from `startSN`, and `endSN` consistent with the length. -/
def fullWF (d : LevelDetails) : Bool :=
  decide (0 < d.fragments.length) && snFrom d.startSN d.fragments &&
    decide (d.endSN = d.startSN + d.fragments.length - 1)

/-- A well-formed delta snapshot: a positive number of leading `none`
placeholders, at least one explicitly carried segment, the explicit segments
present and consecutively numbered, and `endSN` consistent with the length. -/
def deltaWF (d : LevelDetails) : Bool :=
  decide (0 < d.skippedSegments) &&
    decide (d.skippedSegments < d.fragments.length) &&
    (d.fragments.take d.skippedSegments).all Option.isNone &&
    snFrom (d.startSN + d.skippedSegments) (d.fragments.drop d.skippedSegments) &&
    decide (d.endSN = d.startSN + d.fragments.length - 1)

/-- The start times of a fragment list form a continuous timeline:
each fragment starts where the previous one ends. -/
def contiguousFrags : List Fragment → Bool
  | [] => true
  | [_] => true
  | a :: b :: rest => (b.start == a.start + a.duration) && contiguousFrags (b :: rest)

/-- Continuity of a snapshot's present segments. -/
def contiguousDetails (d : LevelDetails) : Bool :=
  contiguousFrags d.fragments.reduceOption

/-- Segments shared between the two snapshots report the same duration. -/
def dursAgree (old nw : LevelDetails) : Bool :=
  let lo := max old.startSN nw.startSN
  let hi := min old.endSN nw.endSN
  (List.range (hi + 1 - lo).toNat).all fun k =>
    match fragAtSN old (lo + k), fragAtSN nw (lo + k) with
    | some a, some b => a.duration == b.duration
    | _, _ => true

/-- The ascending list of `n` consecutive integers starting at `lo`. -/
def intRangeN : Int → Nat → List Int
  | _, 0 => []
  | lo, Nat.succ n => lo :: intRangeN (lo + 1) n

/-- The ascending list of integers from `lo` to `hi` inclusive. -/
def intRange (lo hi : Int) : List Int :=
  intRangeN lo (hi + 1 - lo).toNat

example :
    (mapFragmentIntersection (generatePlaylist [1,2,3,4,5] 0) (generatePlaylist [3,4,5,6,7] 0)).map
      (fun p => p.2.sn) = [3,4,5] := by norm_num [mergeDetails, mergeTiming, mergeStarts, placeholdersOf, phList, fragAtSN, adjustSliding, addSliding, mapFragmentIntersection, visitPairs, generatePlaylist, List.enum, List.enumFrom, List.get?]

example :
    (adjustSliding (generatePlaylist [1,2,3] 0) (generatePlaylist [3,4,5] 0)).fragments =
      (generatePlaylist [3,4,5] 10).fragments := by norm_num [mergeDetails, mergeTiming, mergeStarts, placeholdersOf, phList, fragAtSN, adjustSliding, addSliding, mapFragmentIntersection, visitPairs, generatePlaylist, List.enum, List.enumFrom, List.get?]

example :
    (adjustSliding (generatePlaylist [1,2,3] 0) (generatePlaylist [4,5,6] 0)).fragments =
      (generatePlaylist [4,5,6] 0).fragments := by norm_num [mergeDetails, mergeTiming, mergeStarts, placeholdersOf, phList, fragAtSN, adjustSliding, addSliding, mapFragmentIntersection, visitPairs, generatePlaylist, List.enum, List.enumFrom, List.get?]

example :
    (mergeDetails (generatePlaylist [1,2,3,4] 0) (generatePlaylist [2,3,4,5] 0)).fragments =
      (generatePlaylist [2,3,4,5] 5).fragments := by norm_num [mergeDetails, mergeTiming, mergeStarts, placeholdersOf, phList, fragAtSN, adjustSliding, addSliding, mapFragmentIntersection, visitPairs, generatePlaylist, List.enum, List.enumFrom, List.get?]

example :
    (mergeDetails (generatePlaylist [3,4,5] 10) (generatePlaylist [1,2,3] 0)).fragments =
      (generatePlaylist [1,2,3] 0).fragments := by norm_num [mergeDetails, mergeTiming, mergeStarts, placeholdersOf, phList, fragAtSN, adjustSliding, addSliding, mapFragmentIntersection, visitPairs, generatePlaylist, List.enum, List.enumFrom, List.get?]

example :
    mergeDetails (generatePlaylist [1,2,3,4,5,6,7,8,9,10] 0)
      (let p := generatePlaylist [10,11,12] 0
       { p with skippedSegments := 7, startSN := 3,
                fragments := List.replicate 7 none ++ p.fragments }) =
    (let m := generatePlaylist [3,4,5,6,7,8,9,10,11,12] 10
     { m with skippedSegments := 7, deltaUpdateFailed := some false }) := by norm_num [mergeDetails, mergeTiming, mergeStarts, placeholdersOf, phList, fragAtSN, adjustSliding, addSliding, mapFragmentIntersection, visitPairs, generatePlaylist, List.enum, List.enumFrom, List.get?]

example :
    mergeDetails (generatePlaylist [1,2,3,4,5,6,7,8] 0)
      (let p := generatePlaylist [10,11,12] 0
       { p with skippedSegments := 5, startSN := 5,
                fragments := List.replicate 5 none ++ p.fragments }) =
    (let m := generatePlaylist [10,11,12] 0
     { m with skippedSegments := 5, deltaUpdateFailed := some true }) := by norm_num [mergeDetails, mergeTiming, mergeStarts, placeholdersOf, phList, fragAtSN, adjustSliding, addSliding, mapFragmentIntersection, visitPairs, generatePlaylist, List.enum, List.enumFrom, List.get?]

example :
    computeReloadInterval { generatePlaylist [3,4] 0 with averagetargetduration := some 5 } none
      = 5000 := by norm_num [computeReloadInterval, baseDuration, generatePlaylist, round_eq]

example :
    computeReloadInterval
      { generatePlaylist [3,4] 0 with averagetargetduration := none, targetduration := 4 } none
      = 4000 := by norm_num [computeReloadInterval, baseDuration, generatePlaylist, round_eq]

example :
    computeReloadInterval
      { generatePlaylist [1,2] 0 with averagetargetduration := some 5, updated := false } none
      = 2500 := by norm_num [computeReloadInterval, baseDuration, generatePlaylist, round_eq]

example :
    computeReloadInterval
      { generatePlaylist [3,4] 0 with averagetargetduration := some (59999/10000) } none
      = 6000 := by norm_num [computeReloadInterval, baseDuration, generatePlaylist, round_eq]

example :
    computeReloadInterval { generatePlaylist [3,4] 0 with averagetargetduration := some 5 }
      (some 1000) = 4000 := by norm_num [computeReloadInterval, baseDuration, generatePlaylist, round_eq]

example :
    computeReloadInterval
      { generatePlaylist [3,4] 0 with averagetargetduration := some 5, updated := false }
      (some 1000) = 2500 := by norm_num [computeReloadInterval, baseDuration, generatePlaylist, round_eq]

/-! ### Basic lemmas about well-formed snapshots and segment lookup -/

lemma snFrom_get (l : List (Option Fragment)) :
    ∀ (sn : Int) (k : Nat), snFrom sn l = true → k < l.length →
      ∃ f, l.get? k = some (some f) ∧ f.sn = sn + k := by
  induction l with
  | nil => intro sn k _ hk; simp at hk
  | cons x t ih =>
    intro sn k h hk
    cases x with
    | none => simp [snFrom] at h
    | some f =>
      rw [snFrom, Bool.and_eq_true, beq_iff_eq] at h
      obtain ⟨hsn, ht⟩ := h
      cases k with
      | zero => exact ⟨f, by simp, by simp [hsn]⟩
      | succ k =>
        obtain ⟨g, hg, hgsn⟩ := ih (sn + 1) k ht (by simpa using hk)
        refine ⟨g, by simpa using hg, ?_⟩
        rw [hgsn]; push_cast; ring

lemma fullWF_facts (d : LevelDetails) (h : fullWF d = true) :
    0 < d.fragments.length ∧ snFrom d.startSN d.fragments = true ∧
      d.endSN = d.startSN + d.fragments.length - 1 := by
  rw [fullWF, Bool.and_eq_true, Bool.and_eq_true, decide_eq_true_eq, decide_eq_true_eq] at h
  exact ⟨h.1.1, h.1.2, h.2⟩

lemma deltaWF_facts (d : LevelDetails) (h : deltaWF d = true) :
    0 < d.skippedSegments ∧ d.skippedSegments < d.fragments.length ∧
      (d.fragments.take d.skippedSegments).all Option.isNone = true ∧
      snFrom (d.startSN + d.skippedSegments) (d.fragments.drop d.skippedSegments) = true ∧
      d.endSN = d.startSN + d.fragments.length - 1 := by
  rw [deltaWF] at h
  simp only [Bool.and_eq_true, decide_eq_true_eq] at h
  exact ⟨h.1.1.1.1, h.1.1.1.2, h.1.1.2, h.1.2, h.2⟩

lemma fragAtSN_some (d : LevelDetails) (sn : Int) (h : fullWF d = true)
    (h1 : d.startSN ≤ sn) (h2 : sn ≤ d.endSN) :
    ∃ f, fragAtSN d sn = some f ∧ f.sn = sn := by
  obtain ⟨hlen, hsn, hend⟩ := fullWF_facts d h
  have hk : (sn - d.startSN).toNat < d.fragments.length := by omega
  obtain ⟨f, hf, hfsn⟩ := snFrom_get d.fragments d.startSN _ hsn hk
  refine ⟨f, ?_, ?_⟩
  · rw [fragAtSN, if_neg (by omega), hf]; rfl
  · rw [hfsn]; omega

lemma fragAtSN_none_of_lt (d : LevelDetails) (sn : Int) (h : sn < d.startSN) :
    fragAtSN d sn = none := by
  rw [fragAtSN, if_pos h]

lemma fragAtSN_none_of_gt (d : LevelDetails) (sn : Int) (h : fullWF d = true)
    (h2 : d.endSN < sn) : fragAtSN d sn = none := by
  obtain ⟨hlen, hsn, hend⟩ := fullWF_facts d h
  by_cases h1 : sn < d.startSN
  · exact fragAtSN_none_of_lt d sn h1
  · rw [fragAtSN, if_neg h1, List.get?_eq_none.mpr (by omega)]; rfl

lemma mergeTiming_deltaUpdateFailed (old nw : LevelDetails) :
    (mergeTiming old nw).deltaUpdateFailed = nw.deltaUpdateFailed := by
  simp only [mergeTiming]
  split
  · rfl
  · split <;> rfl

lemma mergeTiming_startSN (old nw : LevelDetails) :
    (mergeTiming old nw).startSN = nw.startSN := by
  simp only [mergeTiming]
  split
  · rfl
  · split <;> rfl

lemma mergeTiming_skippedSegments (old nw : LevelDetails) :
    (mergeTiming old nw).skippedSegments = nw.skippedSegments := by
  simp only [mergeTiming]
  split
  · rfl
  · split <;> rfl

/-! ### The Segment Identity Matcher -/

lemma intRangeN_length : ∀ (n : Nat) (lo : Int), (intRangeN lo n).length = n := by
  intro n
  induction n with
  | zero => intro lo; rfl
  | succ n ih => intro lo; simp [intRangeN, ih]

lemma intRangeN_le_of_mem : ∀ (n : Nat) (lo x : Int), x ∈ intRangeN lo n → lo ≤ x := by
  intro n
  induction n with
  | zero => intro lo x hx; simp [intRangeN] at hx
  | succ n ih =>
    intro lo x hx
    rcases List.mem_cons.mp hx with h | h
    · omega
    · have := ih (lo + 1) x h; omega

lemma intRangeN_sorted : ∀ (n : Nat) (lo : Int),
    List.Sorted (fun a b => a < b) (intRangeN lo n) := by
  intro n
  induction n with
  | zero => intro lo; simp [intRangeN]
  | succ n ih =>
    intro lo
    rw [intRangeN, List.sorted_cons]
    exact ⟨fun x hx => by have := intRangeN_le_of_mem n (lo + 1) x hx; omega, ih (lo + 1)⟩

lemma visitPairs_spec (old nw : LevelDetails) :
    ∀ (n : Nat) (sn : Int),
      (∀ k : Nat, k < n →
        ∃ of nf, fragAtSN old (sn + k) = some of ∧ fragAtSN nw (sn + k) = some nf ∧
          of.sn = sn + k ∧ nf.sn = sn + k) →
      (visitPairs old nw n sn).map (fun p => p.1.sn) = intRangeN sn n ∧
      (visitPairs old nw n sn).map (fun p => p.2.sn) = intRangeN sn n ∧
      (∀ p ∈ visitPairs old nw n sn, p.1.sn = p.2.sn) := by
  intro n
  induction n with
  | zero => intro sn _; exact ⟨rfl, rfl, by simp [visitPairs]⟩
  | succ n ih =>
    intro sn H
    have h0 := H 0 (Nat.succ_pos n)
    rw [Nat.cast_zero, add_zero] at h0
    obtain ⟨of, nf, hof, hnf, hofsn, hnfsn⟩ := h0
    have H1 : ∀ k : Nat, k < n →
        ∃ og ng, fragAtSN old ((sn + 1) + k) = some og ∧ fragAtSN nw ((sn + 1) + k) = some ng ∧
          og.sn = (sn + 1) + k ∧ ng.sn = (sn + 1) + k := by
      intro k hk
      have h := H (k + 1) (by omega)
      have e : sn + ((k + 1 : Nat) : Int) = (sn + 1) + (k : Int) := by push_cast; ring
      rw [e] at h
      exact h
    obtain ⟨m1, m2, m3⟩ := ih (sn + 1) H1
    rw [visitPairs, hof, hnf]
    refine ⟨?_, ?_, ?_⟩
    · rw [List.map_cons, m1, intRangeN, hofsn]
    · rw [List.map_cons, m2, intRangeN, hnfsn]
    · intro p hp
      rcases List.mem_cons.mp hp with h | h
      · subst h; rw [hofsn, hnfsn]
      · exact m3 p h

/-- C1: for well-formed snapshots with overlapping sequence-number ranges the
Matcher visits exactly `min(old.endSN, new.endSN) - max(old.startSN, new.startSN) + 1`
pairs, once per shared sequence number, each pair carrying equal sequence
numbers, in ascending sequence-number order; with disjoint ranges it visits
no pair at all. -/
theorem mapFragmentIntersection_spec (old nw : LevelDetails)
    (hold : fullWF old = true) (hnew : fullWF nw = true) :
    (min old.endSN nw.endSN < max old.startSN nw.startSN →
      mapFragmentIntersection old nw = []) ∧
    (max old.startSN nw.startSN ≤ min old.endSN nw.endSN →
      (mapFragmentIntersection old nw).length
        = (min old.endSN nw.endSN - max old.startSN nw.startSN + 1).toNat) ∧
    ((mapFragmentIntersection old nw).map (fun p => p.1.sn)
      = intRange (max old.startSN nw.startSN) (min old.endSN nw.endSN)) ∧
    (∀ p ∈ mapFragmentIntersection old nw, p.1.sn = p.2.sn) ∧
    List.Sorted (fun a b => a < b)
      ((mapFragmentIntersection old nw).map (fun p => p.1.sn)) := by
  have h1 : old.startSN ≤ max old.startSN nw.startSN := le_max_left _ _
  have h2 : nw.startSN ≤ max old.startSN nw.startSN := le_max_right _ _
  have h3 : min old.endSN nw.endSN ≤ old.endSN := min_le_left _ _
  have h4 : min old.endSN nw.endSN ≤ nw.endSN := min_le_right _ _
  by_cases hov : max old.startSN nw.startSN ≤ min old.endSN nw.endSN
  · have hmap : mapFragmentIntersection old nw =
        visitPairs old nw (min old.endSN nw.endSN + 1 - max old.startSN nw.startSN).toNat
          (max old.startSN nw.startSN) := by
      simp only [mapFragmentIntersection]
      rw [if_pos hov]
    have H : ∀ k : Nat, k < (min old.endSN nw.endSN + 1 - max old.startSN nw.startSN).toNat →
        ∃ of nf, fragAtSN old (max old.startSN nw.startSN + k) = some of ∧
          fragAtSN nw (max old.startSN nw.startSN + k) = some nf ∧
          of.sn = max old.startSN nw.startSN + k ∧
          nf.sn = max old.startSN nw.startSN + k := by
      intro k hk
      obtain ⟨of, hof, hofsn⟩ :=
        fragAtSN_some old (max old.startSN nw.startSN + k) hold (by omega) (by omega)
      obtain ⟨nf, hnf, hnfsn⟩ :=
        fragAtSN_some nw (max old.startSN nw.startSN + k) hnew (by omega) (by omega)
      exact ⟨of, nf, hof, hnf, hofsn, hnfsn⟩
    obtain ⟨m1, m2, m3⟩ := visitPairs_spec old nw _ _ H
    refine ⟨fun hlt => by omega, fun _ => ?_, ?_, ?_, ?_⟩
    · have := congrArg List.length m1
      rw [List.length_map, intRangeN_length] at this
      rw [hmap, this]
      congr 1
      omega
    · rw [hmap, m1, intRange]
    · rw [hmap]; exact m3
    · rw [hmap, m1]; exact intRangeN_sorted _ _
  · have hmap : mapFragmentIntersection old nw = [] := by
      simp only [mapFragmentIntersection]
      rw [if_neg hov]
    refine ⟨fun _ => hmap, fun hle => absurd hle hov, ?_, ?_, ?_⟩
    · rw [hmap, intRange]
      have : (min old.endSN nw.endSN + 1 - max old.startSN nw.startSN).toNat = 0 := by omega
      rw [this]
      rfl
    · rw [hmap]; intro p hp; simp at hp
    · rw [hmap]; simp

/-- C1 witness: the Matcher applied to the overlapping snapshot pair of the
unit tests, old sequence numbers 1..5 and new sequence numbers 3..7. -/
theorem mapFragmentIntersection_spec_witness :
    fullWF (generatePlaylist [1,2,3,4,5] 0) = true ∧
    fullWF (generatePlaylist [3,4,5,6,7] 0) = true ∧
    ((min (generatePlaylist [1,2,3,4,5] 0).endSN (generatePlaylist [3,4,5,6,7] 0).endSN <
        max (generatePlaylist [1,2,3,4,5] 0).startSN (generatePlaylist [3,4,5,6,7] 0).startSN →
      mapFragmentIntersection (generatePlaylist [1,2,3,4,5] 0) (generatePlaylist [3,4,5,6,7] 0) = []) ∧
    (max (generatePlaylist [1,2,3,4,5] 0).startSN (generatePlaylist [3,4,5,6,7] 0).startSN ≤
        min (generatePlaylist [1,2,3,4,5] 0).endSN (generatePlaylist [3,4,5,6,7] 0).endSN →
      (mapFragmentIntersection (generatePlaylist [1,2,3,4,5] 0) (generatePlaylist [3,4,5,6,7] 0)).length
        = (min (generatePlaylist [1,2,3,4,5] 0).endSN (generatePlaylist [3,4,5,6,7] 0).endSN -
            max (generatePlaylist [1,2,3,4,5] 0).startSN (generatePlaylist [3,4,5,6,7] 0).startSN + 1).toNat) ∧
    ((mapFragmentIntersection (generatePlaylist [1,2,3,4,5] 0) (generatePlaylist [3,4,5,6,7] 0)).map
        (fun p => p.1.sn)
      = intRange (max (generatePlaylist [1,2,3,4,5] 0).startSN (generatePlaylist [3,4,5,6,7] 0).startSN)
          (min (generatePlaylist [1,2,3,4,5] 0).endSN (generatePlaylist [3,4,5,6,7] 0).endSN)) ∧
    (∀ p ∈ mapFragmentIntersection (generatePlaylist [1,2,3,4,5] 0) (generatePlaylist [3,4,5,6,7] 0),
        p.1.sn = p.2.sn) ∧
    List.Sorted (fun a b => a < b)
      ((mapFragmentIntersection (generatePlaylist [1,2,3,4,5] 0) (generatePlaylist [3,4,5,6,7] 0)).map
        (fun p => p.1.sn))) :=
  ⟨by decide, by decide,
    mapFragmentIntersection_spec (generatePlaylist [1,2,3,4,5] 0) (generatePlaylist [3,4,5,6,7] 0)
      (by decide) (by decide)⟩

/-! ### The Continuity Offset Adjuster -/

/-- C2: for well-formed non-delta snapshots, when no segment matches (disjoint
windows, including adjacent-but-non-overlapping ones) `adjustSliding` leaves
the new snapshot unchanged; when the windows overlap, the first matched pair
is the one at the window's low bound and the single offset
`oldSegment.start - newSegment.start` is added to every segment's start. -/
theorem adjustSliding_spec (old nw : LevelDetails)
    (hold : fullWF old = true) (hnew : fullWF nw = true) :
    (min old.endSN nw.endSN < max old.startSN nw.startSN →
      adjustSliding old nw = nw) ∧
    (max old.startSN nw.startSN ≤ min old.endSN nw.endSN →
      ∃ of nf, fragAtSN old (max old.startSN nw.startSN) = some of ∧
        fragAtSN nw (max old.startSN nw.startSN) = some nf ∧
        (adjustSliding old nw).fragments =
          nw.fragments.map (Option.map fun f =>
            { f with start := f.start + (of.start - nf.start) })) := by
  have h1 : old.startSN ≤ max old.startSN nw.startSN := le_max_left _ _
  have h2 : nw.startSN ≤ max old.startSN nw.startSN := le_max_right _ _
  have h3 : min old.endSN nw.endSN ≤ old.endSN := min_le_left _ _
  have h4 : min old.endSN nw.endSN ≤ nw.endSN := min_le_right _ _
  constructor
  · intro hlt
    have hmap : mapFragmentIntersection old nw = [] := by
      simp only [mapFragmentIntersection]
      rw [if_neg (by omega)]
    rw [adjustSliding, hmap]
  · intro hov
    obtain ⟨of, hof, hofsn⟩ :=
      fragAtSN_some old (max old.startSN nw.startSN) hold (by omega) (by omega)
    obtain ⟨nf, hnf, hnfsn⟩ :=
      fragAtSN_some nw (max old.startSN nw.startSN) hnew (by omega) (by omega)
    obtain ⟨m, hm⟩ : ∃ m : Nat,
        (min old.endSN nw.endSN + 1 - max old.startSN nw.startSN).toNat = m + 1 := by
      refine ⟨(min old.endSN nw.endSN - max old.startSN nw.startSN).toNat, by omega⟩
    have hmap : mapFragmentIntersection old nw =
        (of, nf) :: visitPairs old nw m (max old.startSN nw.startSN + 1) := by
      simp only [mapFragmentIntersection]
      rw [if_pos hov, hm, visitPairs, hof, hnf]
    refine ⟨of, nf, hof, hnf, ?_⟩
    rw [adjustSliding, hmap]
    rfl

/-- C2 witness: the adjuster applied to the unit-test snapshots with sequence
numbers 1..3 and 3..5, where the anchor is the pair at sequence number 3 and
the offset is 10; the shifted start times are 10, 15, 20. -/
theorem adjustSliding_spec_witness :
    fullWF (generatePlaylist [1,2,3] 0) = true ∧
    fullWF (generatePlaylist [3,4,5] 0) = true ∧
    (max (generatePlaylist [1,2,3] 0).startSN (generatePlaylist [3,4,5] 0).startSN ≤
      min (generatePlaylist [1,2,3] 0).endSN (generatePlaylist [3,4,5] 0).endSN) ∧
    (∃ of nf,
      fragAtSN (generatePlaylist [1,2,3] 0)
        (max (generatePlaylist [1,2,3] 0).startSN (generatePlaylist [3,4,5] 0).startSN) = some of ∧
      fragAtSN (generatePlaylist [3,4,5] 0)
        (max (generatePlaylist [1,2,3] 0).startSN (generatePlaylist [3,4,5] 0).startSN) = some nf ∧
      (adjustSliding (generatePlaylist [1,2,3] 0) (generatePlaylist [3,4,5] 0)).fragments =
        (generatePlaylist [3,4,5] 0).fragments.map (Option.map fun f =>
          { f with start := f.start + (of.start - nf.start) })) ∧
    (adjustSliding (generatePlaylist [1,2,3] 0) (generatePlaylist [3,4,5] 0)).fragments =
      (generatePlaylist [3,4,5] 10).fragments ∧
    adjustSliding (generatePlaylist [1,2,3] 0) (generatePlaylist [4,5,6] 0) =
      generatePlaylist [4,5,6] 0 :=
  ⟨by decide, by decide, by decide,
    (adjustSliding_spec (generatePlaylist [1,2,3] 0) (generatePlaylist [3,4,5] 0)
      (by decide) (by decide)).2 (by decide),
    by norm_num [adjustSliding, addSliding, mapFragmentIntersection, visitPairs, fragAtSN,
      generatePlaylist, List.enum, List.enumFrom, List.get?],
    (adjustSliding_spec (generatePlaylist [1,2,3] 0) (generatePlaylist [4,5,6] 0)
      (by decide) (by decide)).1 (by decide)⟩

/-! ### The Snapshot Merger: backward windows, delta failure, delta flag -/

/-- C6: when the new snapshot's window begins strictly before the old one's,
`mergeDetails` applies no offset and no extrapolation: a full update is
returned entirely unchanged, and a delta update keeps every explicitly
carried segment (the only ones with a start time) exactly as supplied. -/
theorem mergeDetails_backward_noop (old nw : LevelDetails)
    (h : nw.startSN < old.startSN) :
    (nw.skippedSegments = 0 → mergeDetails old nw = nw) ∧
    (0 < nw.skippedSegments →
      (mergeDetails old nw).fragments = nw.fragments.drop nw.skippedSegments) := by
  constructor
  · intro hs
    rw [mergeDetails, if_pos hs, mergeTiming, if_pos h]
  · intro hs
    obtain ⟨m, hm⟩ : ∃ m : Nat, nw.skippedSegments = m + 1 :=
      ⟨nw.skippedSegments - 1, by omega⟩
    have hph : placeholdersOf old nw = none :: phList old (nw.startSN + 1) m := by
      rw [placeholdersOf, hm, phList, fragAtSN_none_of_lt old nw.startSN h]
    rw [mergeDetails, if_neg (by omega), hph]
    rfl

/-- C6 witness: the unit-test vector where the old snapshot covers sequence
numbers 3..5 at shifted times and the new one covers 1..3; the merge leaves
the new snapshot untouched even though sequence number 3 overlaps. -/
theorem mergeDetails_backward_noop_witness :
    ((generatePlaylist [1,2,3] 0).startSN < (generatePlaylist [3,4,5] 10).startSN) ∧
    ((generatePlaylist [1,2,3] 0).skippedSegments = 0 →
      mergeDetails (generatePlaylist [3,4,5] 10) (generatePlaylist [1,2,3] 0) =
        generatePlaylist [1,2,3] 0) ∧
    mergeDetails (generatePlaylist [3,4,5] 10) (generatePlaylist [1,2,3] 0) =
      generatePlaylist [1,2,3] 0 :=
  ⟨by decide,
    (mergeDetails_backward_noop (generatePlaylist [3,4,5] 10) (generatePlaylist [1,2,3] 0)
      (by decide)).1,
    (mergeDetails_backward_noop (generatePlaylist [3,4,5] 10) (generatePlaylist [1,2,3] 0)
      (by decide)).1 rfl⟩

/-- C10: whenever a delta update reconstructs successfully (every placeholder
position is resolvable from the old snapshot), the resulting snapshot's
`deltaUpdateFailed` flag is the defined boolean value `false`, not merely
absent. -/
theorem mergeDetails_delta_flag_false (old nw : LevelDetails)
    (hpos : 0 < nw.skippedSegments)
    (hcov : (placeholdersOf old nw).all Option.isSome = true) :
    (mergeDetails old nw).deltaUpdateFailed = some false := by
  rw [mergeDetails, if_neg (by omega)]
  simp only [hcov, if_pos]
  rw [mergeTiming_deltaUpdateFailed]

/-- C10 witness: the successful delta merge of the unit tests (old sequence
numbers 1..10, delta with 7 skipped segments starting at sequence number 3). -/
theorem mergeDetails_delta_flag_false_witness :
    (0 < newDeltaOk.skippedSegments) ∧
    ((placeholdersOf (generatePlaylist [1,2,3,4,5,6,7,8,9,10] 0) newDeltaOk).all
        Option.isSome = true) ∧
    (mergeDetails (generatePlaylist [1,2,3,4,5,6,7,8,9,10] 0) newDeltaOk).deltaUpdateFailed
      = some false :=
  ⟨by decide, by decide,
    mergeDetails_delta_flag_false (generatePlaylist [1,2,3,4,5,6,7,8,9,10] 0) newDeltaOk
      (by decide) (by decide)⟩

/-- C5: when a delta update's placeholders cannot all be resolved from the
old snapshot, `mergeDetails` does not fail abnormally (it is a total
function): it sets `deltaUpdateFailed` to `true`, drops exactly the
placeholder positions so only the explicitly carried segments survive with
their start times untouched, and sets `startSN` to the sequence number of the
first surviving segment. -/
theorem mergeDetails_delta_failure_spec (old nw : LevelDetails)
    (hdelta : deltaWF nw = true)
    (hfail : (placeholdersOf old nw).all Option.isSome = false) :
    (mergeDetails old nw).deltaUpdateFailed = some true ∧
    (mergeDetails old nw).fragments = nw.fragments.drop nw.skippedSegments ∧
    (∃ f, (nw.fragments.drop nw.skippedSegments).head? = some (some f) ∧
      (mergeDetails old nw).startSN = f.sn ∧
      f.sn = nw.startSN + nw.skippedSegments) := by
  obtain ⟨hpos, hlt, _, hsnfrom, _⟩ := deltaWF_facts nw hdelta
  have hk : 0 < (nw.fragments.drop nw.skippedSegments).length := by
    rw [List.length_drop]; omega
  obtain ⟨f, hf, hfsn⟩ := snFrom_get _ _ 0 hsnfrom hk
  rw [Nat.cast_zero, add_zero] at hfsn
  have hhead : (nw.fragments.drop nw.skippedSegments).head? = some (some f) := by
    rw [← List.get?_zero, hf]
  have hmerge : mergeDetails old nw =
      { nw with
        deltaUpdateFailed := some true,
        fragments := nw.fragments.drop nw.skippedSegments,
        startSN := f.sn } := by
    rw [mergeDetails, if_neg (by omega)]
    simp only [hfail, Bool.false_eq_true, if_false, hhead]
  rw [hmerge]
  exact ⟨rfl, rfl, f, hhead, rfl, hfsn⟩

/-- C5 witness: the failing delta merge of the unit tests (old sequence
numbers 1..8, delta with 5 skipped segments starting at sequence number 5,
carrying segments 10..12): the flag is set, exactly the three carried
segments survive with unchanged starts 0, 5, 10, and `startSN` becomes 10. -/
theorem mergeDetails_delta_failure_spec_witness :
    (deltaWF newDeltaFail = true) ∧
    ((placeholdersOf (generatePlaylist [1,2,3,4,5,6,7,8] 0) newDeltaFail).all
        Option.isSome = false) ∧
    ((mergeDetails (generatePlaylist [1,2,3,4,5,6,7,8] 0) newDeltaFail).deltaUpdateFailed
        = some true) ∧
    ((mergeDetails (generatePlaylist [1,2,3,4,5,6,7,8] 0) newDeltaFail).fragments
        = (generatePlaylist [10,11,12] 0).fragments) ∧
    ((mergeDetails (generatePlaylist [1,2,3,4,5,6,7,8] 0) newDeltaFail).startSN = 10) :=
  ⟨by decide, by decide,
    (mergeDetails_delta_failure_spec (generatePlaylist [1,2,3,4,5,6,7,8] 0) newDeltaFail
      (by decide) (by decide)).1,
    by
      rw [(mergeDetails_delta_failure_spec (generatePlaylist [1,2,3,4,5,6,7,8] 0) newDeltaFail
        (by decide) (by decide)).2.1]
      rfl,
    by decide⟩

/-! ### The Reload Interval Calculator -/

/-- C7: the reload interval is `round(1000 * base)` milliseconds when the
snapshot is updated and `round(500 * base)` when it is not, with the base
duration being `averagetargetduration` when truthy and `targetduration`
otherwise; a supplied latency is subtracted from the rounded interval with a
floor at half of the unhalved base in milliseconds, and without a latency no
subtraction happens. The concrete conjuncts are the unit-test vectors. -/
theorem computeReloadInterval_spec :
    (∀ d : LevelDetails, d.updated = true →
      computeReloadInterval d none = ((round ((1000 : ℚ) * baseDuration d) : ℤ) : ℚ)) ∧
    (∀ d : LevelDetails, d.updated = false →
      computeReloadInterval d none = ((round ((500 : ℚ) * baseDuration d) : ℤ) : ℚ)) ∧
    (∀ (d : LevelDetails) (lat : ℚ),
      computeReloadInterval d (some lat)
        = max (computeReloadInterval d none - lat) (500 * baseDuration d)) ∧
    (∀ d : LevelDetails, d.averagetargetduration = none →
      baseDuration d = d.targetduration) ∧
    (∀ d : LevelDetails, d.averagetargetduration = some 0 →
      baseDuration d = d.targetduration) ∧
    (∀ (d : LevelDetails) (a : ℚ), d.averagetargetduration = some a → a ≠ 0 →
      baseDuration d = a) ∧
    computeReloadInterval
      { generatePlaylist [3,4] 0 with averagetargetduration := some 5 } none = 5000 ∧
    computeReloadInterval
      { generatePlaylist [3,4] 0 with
        averagetargetduration := none, targetduration := 4 } none = 4000 ∧
    computeReloadInterval
      { generatePlaylist [1,2] 0 with
        averagetargetduration := some 5, updated := false } none = 2500 ∧
    computeReloadInterval
      { generatePlaylist [3,4] 0 with
        averagetargetduration := some (59999/10000) } none = 6000 ∧
    computeReloadInterval
      { generatePlaylist [3,4] 0 with averagetargetduration := some 5 } (some 1000) = 4000 ∧
    computeReloadInterval
      { generatePlaylist [3,4] 0 with
        averagetargetduration := some 5, updated := false } (some 1000) = 2500 := by
  refine ⟨?_, ?_, ?_, ?_, ?_, ?_, ?_, ?_, ?_, ?_, ?_, ?_⟩
  · intro d h; simp [computeReloadInterval, h]
  · intro d h
    simp [computeReloadInterval, h]
    congr 1
    ring
  · intro d lat
    by_cases h : d.updated
    · simp only [computeReloadInterval, h, if_true]
      have e : (1000 : ℚ) * baseDuration d / 2 = 500 * baseDuration d := by ring
      rw [e]
    · simp only [computeReloadInterval, h, if_false]
      have e : (1000 : ℚ) * baseDuration d / 2 = 500 * baseDuration d := by ring
      rw [e]
  · intro d h; simp [baseDuration, h]
  · intro d h; simp [baseDuration, h]
  · intro d a h ha; simp [baseDuration, h, ha]
  · norm_num [computeReloadInterval, baseDuration, generatePlaylist, round_eq]
  · norm_num [computeReloadInterval, baseDuration, generatePlaylist, round_eq]
  · norm_num [computeReloadInterval, baseDuration, generatePlaylist, round_eq]
  · norm_num [computeReloadInterval, baseDuration, generatePlaylist, round_eq]
  · norm_num [computeReloadInterval, baseDuration, generatePlaylist, round_eq]
  · norm_num [computeReloadInterval, baseDuration, generatePlaylist, round_eq]

/-- C7 witness: the characterizations instantiated at the updated and
not-updated unit-test snapshots with average target duration 5. -/
theorem computeReloadInterval_spec_witness :
    ({ generatePlaylist [3,4] 0 with
        averagetargetduration := some 5 } : LevelDetails).updated = true ∧
    computeReloadInterval { generatePlaylist [3,4] 0 with averagetargetduration := some 5 } none
      = ((round ((1000 : ℚ) * baseDuration
          ({ generatePlaylist [3,4] 0 with averagetargetduration := some 5 } : LevelDetails)) : ℤ) : ℚ) ∧
    computeReloadInterval
        { generatePlaylist [3,4] 0 with averagetargetduration := some 5 } (some 1000)
      = max (computeReloadInterval
            { generatePlaylist [3,4] 0 with averagetargetduration := some 5 } none - 1000)
          (500 * baseDuration
            ({ generatePlaylist [3,4] 0 with averagetargetduration := some 5 } : LevelDetails)) :=
  ⟨rfl, computeReloadInterval_spec.1 _ rfl, computeReloadInterval_spec.2.2.1 _ 1000⟩

/-! ### Idempotence of the Merger -/

lemma mergeStarts_id (d : LevelDetails) (hi : Int) :
    ∀ (l : List (Option Fragment)) (sn : Int) (prev : Option Fragment),
      (∀ (k : Nat) (f : Fragment), l.get? k = some (some f) →
        sn + k ≤ hi ∧ fragAtSN d (sn + k) = some f) →
      mergeStarts d hi sn prev l = l := by
  intro l
  induction l with
  | nil => intro sn prev _; rfl
  | cons x t ih =>
    intro sn prev H
    have H1 : ∀ (k : Nat) (f : Fragment), t.get? k = some (some f) →
        (sn + 1) + k ≤ hi ∧ fragAtSN d ((sn + 1) + k) = some f := by
      intro k f hk
      have h := H (k + 1) f (by simpa using hk)
      have e : sn + ((k + 1 : Nat) : Int) = (sn + 1) + (k : Int) := by push_cast; ring
      rw [e] at h
      exact h
    cases x with
    | none =>
      rw [mergeStarts, ih (sn + 1) prev H1]
    | some f =>
      have h0 := H 0 f (by simp)
      rw [Nat.cast_zero, add_zero] at h0
      simp only [mergeStarts, if_pos h0.1, h0.2]
      rw [ih (sn + 1) _ H1]

/-- C8: merging a well-formed full snapshot against itself reproduces the
snapshot unchanged; in particular every start time is identical and the
computed continuity offset is zero. -/
theorem mergeDetails_self (d : LevelDetails) (hwf : fullWF d = true)
    (hskip : d.skippedSegments = 0) : mergeDetails d d = d := by
  obtain ⟨hlen, hsn, hend⟩ := fullWF_facts d hwf
  rw [mergeDetails, if_pos hskip, mergeTiming, if_neg (lt_irrefl _)]
  simp only [min_self]
  rw [if_pos (by omega)]
  have hms : mergeStarts d d.endSN d.startSN none d.fragments = d.fragments := by
    apply mergeStarts_id
    intro k f hk
    have hklen : k < d.fragments.length := by
      by_contra hc
      rw [List.get?_eq_none.mpr (by omega)] at hk
      cases hk
    refine ⟨by omega, ?_⟩
    rw [fragAtSN, if_neg (by omega)]
    have e : (d.startSN + (k : Int) - d.startSN).toNat = k := by omega
    rw [e, hk]
    rfl
  rw [hms]

/-- C8 witness: self-merge of the three-segment unit-test snapshot. -/
theorem mergeDetails_self_witness :
    fullWF (generatePlaylist [1,2,3] 0) = true ∧
    (generatePlaylist [1,2,3] 0).skippedSegments = 0 ∧
    mergeDetails (generatePlaylist [1,2,3] 0) (generatePlaylist [1,2,3] 0) =
      generatePlaylist [1,2,3] 0 :=
  ⟨by decide, rfl, mergeDetails_self (generatePlaylist [1,2,3] 0) (by decide) rfl⟩

/-! ### Structure of the Merger's timing pass -/

lemma snCastSucc (sn : Int) (k : Nat) :
    sn + ((k + 1 : Nat) : Int) = (sn + 1) + (k : Int) := by push_cast; ring

lemma mergeStarts_length (old : LevelDetails) (hi : Int) :
    ∀ (l : List (Option Fragment)) (sn : Int) (prev : Option Fragment),
      (mergeStarts old hi sn prev l).length = l.length := by
  intro l
  induction l with
  | nil => intro sn prev; rfl
  | cons x t ih =>
    intro sn prev
    cases x with
    | none => simp [mergeStarts, ih]
    | some f => simp [mergeStarts, ih]

lemma mergeStarts_snFrom (old : LevelDetails) (hi : Int) :
    ∀ (l : List (Option Fragment)) (sn : Int) (prev : Option Fragment),
      snFrom sn l = true → snFrom sn (mergeStarts old hi sn prev l) = true := by
  intro l
  induction l with
  | nil => intro sn prev _; rfl
  | cons x t ih =>
    intro sn prev h
    cases x with
    | none => rw [snFrom] at h; cases h
    | some f =>
      rw [snFrom, Bool.and_eq_true, beq_iff_eq] at h
      obtain ⟨hf, ht⟩ := h
      simp only [mergeStarts]
      rw [snFrom, Bool.and_eq_true, beq_iff_eq]
      constructor
      · split
        · split
          · exact hf
          · exact hf
        · split
          · exact hf
          · exact hf
      · exact ih (sn + 1) _ ht

lemma mergeStarts_get_copy (old : LevelDetails) (hi : Int) :
    ∀ (l : List (Option Fragment)) (sn : Int) (prev : Option Fragment) (k : Nat)
      (f og : Fragment),
      l.get? k = some (some f) → sn + (k : Int) ≤ hi →
      fragAtSN old (sn + (k : Int)) = some og →
      (mergeStarts old hi sn prev l).get? k = some (some { f with start := og.start }) := by
  intro l
  induction l with
  | nil =>
    intro sn prev k f og hk _ _
    cases k <;> simp [List.get?] at hk
  | cons x t ih =>
    intro sn prev k f og hk hle hog
    cases k with
    | zero =>
      rw [Nat.cast_zero, add_zero] at hle hog
      simp only [List.get?] at hk
      obtain rfl : x = some f := by
        cases hk; rfl
      simp only [mergeStarts, if_pos hle, hog, List.get?]
    | succ k =>
      rw [snCastSucc] at hle hog
      have hk2 : t.get? k = some (some f) := by simpa using hk
      cases x with
      | none =>
        rw [mergeStarts]
        simpa using ih (sn + 1) prev k f og hk2 hle hog
      | some y =>
        simp only [mergeStarts]
        simpa using ih (sn + 1) _ k f og hk2 hle hog

lemma mergeStarts_head_beyond (old : LevelDetails) (hi : Int) :
    ∀ (t : List (Option Fragment)) (sn : Int) (p g : Fragment),
      hi < sn → (mergeStarts old hi sn (some p) t).get? 0 = some (some g) →
      g.start = p.start + p.duration := by
  intro t sn p g hlt h0
  cases t with
  | nil => simp [mergeStarts, List.get?] at h0
  | cons y t2 =>
    cases y with
    | none => simp [mergeStarts, List.get?] at h0
    | some y0 =>
      simp only [mergeStarts, if_neg (not_le.mpr hlt), List.get?, Option.some.injEq] at h0
      rw [← h0]

lemma mergeStarts_chain (old : LevelDetails) (hi : Int) :
    ∀ (l : List (Option Fragment)) (sn : Int) (prev : Option Fragment) (k : Nat)
      (f g : Fragment),
      (mergeStarts old hi sn prev l).get? k = some (some f) →
      (mergeStarts old hi sn prev l).get? (k + 1) = some (some g) →
      hi < sn + (k : Int) + 1 →
      g.start = f.start + f.duration := by
  intro l
  induction l with
  | nil => intro sn prev k f g hk _ _; cases k <;> simp [mergeStarts, List.get?] at hk
  | cons x t ih =>
    intro sn prev k f g hk hk1 hbeyond
    cases x with
    | none =>
      cases k with
      | zero => simp [mergeStarts, List.get?] at hk
      | succ k =>
        simp only [mergeStarts, List.get?] at hk hk1
        exact ih (sn + 1) prev k f g hk hk1 (by push_cast at hbeyond ⊢; omega)
    | some x0 =>
      cases k with
      | zero =>
        rw [Nat.cast_zero, add_zero] at hbeyond
        simp only [mergeStarts, List.get?, Option.some.injEq] at hk hk1
        have hg := mergeStarts_head_beyond old hi t (sn + 1) _ g hbeyond hk1
        rw [hg, ← hk]
      | succ k =>
        simp only [mergeStarts, List.get?] at hk hk1
        exact ih (sn + 1) _ k f g hk hk1 (by push_cast at hbeyond ⊢; omega)

/-! ### Continuity of merged timelines -/

lemma contiguousFrags_tail (a : Fragment) (r : List Fragment)
    (h : contiguousFrags (a :: r) = true) : contiguousFrags r = true := by
  cases r with
  | nil => rfl
  | cons b r2 =>
    rw [contiguousFrags, Bool.and_eq_true] at h
    exact h.2

lemma contiguous_get (l : List (Option Fragment)) :
    ∀ (sn : Int), snFrom sn l = true → contiguousFrags l.reduceOption = true →
      ∀ (k : Nat) (a b : Fragment), l.get? k = some (some a) →
        l.get? (k + 1) = some (some b) → b.start = a.start + a.duration := by
  induction l with
  | nil => intro sn _ _ k a b hk; cases k <;> simp [List.get?] at hk
  | cons x t ih =>
    intro sn hsn hcont k a b hk hk1
    cases x with
    | none => rw [snFrom] at hsn; cases hsn
    | some f =>
      rw [snFrom, Bool.and_eq_true] at hsn
      rw [List.reduceOption_cons_of_some] at hcont
      cases k with
      | zero =>
        simp only [List.get?, Option.some.injEq] at hk hk1
        cases t with
        | nil => simp [List.get?] at hk1
        | cons y t2 =>
          cases y with
          | none =>
            rw [snFrom] at hsn
            exact absurd hsn.2 (by simp)
          | some g =>
            simp only [List.get?, Option.some.injEq] at hk1
            rw [List.reduceOption_cons_of_some, contiguousFrags, Bool.and_eq_true,
              beq_iff_eq] at hcont
            rw [← hk, ← hk1]
            exact hcont.1
      | succ k =>
        simp only [List.get?] at hk hk1
        exact ih (sn + 1) hsn.2 (contiguousFrags_tail f _ hcont) k a b hk hk1

lemma fragAtSN_inv (d : LevelDetails) (m : Int) (a : Fragment)
    (h : fragAtSN d m = some a) :
    d.startSN ≤ m ∧ d.fragments.get? (m - d.startSN).toNat = some (some a) := by
  rw [fragAtSN] at h
  by_cases h1 : m < d.startSN
  · rw [if_pos h1] at h; cases h
  · rw [if_neg h1] at h
    refine ⟨by omega, ?_⟩
    cases hg : d.fragments.get? (m - d.startSN).toNat with
    | none => rw [hg] at h; cases h
    | some o =>
      rw [hg] at h
      cases o with
      | none => cases h
      | some f =>
        have h2 : some f = some a := h
        rw [← h2]

lemma fragAtSN_chain (old : LevelDetails) (hold : fullWF old = true)
    (hcont : contiguousDetails old = true) (m : Int) (a b : Fragment)
    (ha : fragAtSN old m = some a) (hb : fragAtSN old (m + 1) = some b) :
    b.start = a.start + a.duration := by
  obtain ⟨hm, hga⟩ := fragAtSN_inv old m a ha
  obtain ⟨hm1, hgb⟩ := fragAtSN_inv old (m + 1) b hb
  obtain ⟨hlen, hsn, hend⟩ := fullWF_facts old hold
  have e : (m + 1 - old.startSN).toNat = (m - old.startSN).toNat + 1 := by omega
  rw [e] at hgb
  rw [contiguousDetails] at hcont
  exact contiguous_get old.fragments old.startSN hsn hcont _ a b hga hgb

lemma dursAgree_fact (old nw : LevelDetails) (h : dursAgree old nw = true)
    (m : Int) (a b : Fragment)
    (h1 : max old.startSN nw.startSN ≤ m) (h2 : m ≤ min old.endSN nw.endSN)
    (ha : fragAtSN old m = some a) (hb : fragAtSN nw m = some b) :
    a.duration = b.duration := by
  simp only [dursAgree] at h
  rw [List.all_eq_true] at h
  have hmem : (m - max old.startSN nw.startSN).toNat
      ∈ List.range (min old.endSN nw.endSN + 1 - max old.startSN nw.startSN).toNat :=
    List.mem_range.mpr (by omega)
  have hx := h _ hmem
  have e : max old.startSN nw.startSN + ((m - max old.startSN nw.startSN).toNat : Int) = m := by
    omega
  rw [e, ha, hb] at hx
  exact beq_iff_eq.mp hx

lemma fragAtSN_of_get (d : LevelDetails) (k : Nat) (f : Fragment)
    (hk : d.fragments.get? k = some (some f)) :
    fragAtSN d (d.startSN + (k : Int)) = some f := by
  rw [fragAtSN, if_neg (by omega)]
  have e : (d.startSN + (k : Int) - d.startSN).toNat = k := by omega
  rw [e, hk]
  rfl

lemma mergeStarts_contiguous (old : LevelDetails) (hi : Int) :
    ∀ (l : List (Option Fragment)) (sn : Int) (p : Fragment),
      snFrom sn l = true →
      (∀ m : Int, sn ≤ m → m ≤ hi → ∃ og, fragAtSN old m = some og) →
      (∀ (m : Int) (og og2 : Fragment), fragAtSN old m = some og →
        fragAtSN old (m + 1) = some og2 → og2.start = og.start + og.duration) →
      (∀ (k : Nat) (f og : Fragment), l.get? k = some (some f) → sn + (k : Int) ≤ hi →
        fragAtSN old (sn + (k : Int)) = some og → og.duration = f.duration) →
      (∀ og : Fragment, sn ≤ hi → fragAtSN old sn = some og →
        p.start + p.duration = og.start) →
      contiguousFrags (p :: (mergeStarts old hi sn (some p) l).reduceOption) = true := by
  intro l
  induction l with
  | nil => intro sn p _ _ _ _ _; rfl
  | cons x t ih =>
    intro sn p hsn hA hB hC hp
    cases x with
    | none => rw [snFrom] at hsn; cases hsn
    | some f =>
      rw [snFrom, Bool.and_eq_true, beq_iff_eq] at hsn
      obtain ⟨hfsn, hsnt⟩ := hsn
      have hC0 : ∀ og : Fragment, sn ≤ hi → fragAtSN old sn = some og →
          og.duration = f.duration := by
        intro og hle hog
        exact hC 0 f og (by simp [List.get?]) (by rwa [Nat.cast_zero, add_zero])
          (by rwa [Nat.cast_zero, add_zero])
      have hCt : ∀ (k : Nat) (f2 og : Fragment), t.get? k = some (some f2) →
          (sn + 1) + (k : Int) ≤ hi → fragAtSN old ((sn + 1) + (k : Int)) = some og →
          og.duration = f2.duration := by
        intro k f2 og hk hle hog
        rw [← snCastSucc] at hle hog
        exact hC (k + 1) f2 og (by simpa using hk) hle hog
      have hAt : ∀ m : Int, sn + 1 ≤ m → m ≤ hi → ∃ og, fragAtSN old m = some og := by
        intro m hm1 hm2; exact hA m (by omega) hm2
      by_cases hle : sn ≤ hi
      · obtain ⟨og, hog⟩ := hA sn le_rfl hle
        have hdur : og.duration = f.duration := hC0 og hle hog
        simp only [mergeStarts, if_pos hle, hog]
        rw [List.reduceOption_cons_of_some, contiguousFrags, Bool.and_eq_true, beq_iff_eq]
        constructor
        · exact (hp og hle hog).symm
        · apply ih (sn + 1) _ hsnt hAt hB hCt
          intro og2 h1 hog2
          have hchain := hB sn og og2 hog hog2
          show og.start + f.duration = og2.start
          rw [← hdur, ← hchain]
      · simp only [mergeStarts, if_neg hle]
        rw [List.reduceOption_cons_of_some, contiguousFrags, Bool.and_eq_true, beq_iff_eq]
        constructor
        · rfl
        · apply ih (sn + 1) _ hsnt hAt hB hCt
          intro og2 h1 _
          exact absurd h1 (by omega)

lemma mergeStarts_contiguous_top (old : LevelDetails) (hi : Int)
    (l : List (Option Fragment)) (sn : Int)
    (hsn : snFrom sn l = true) (hle : sn ≤ hi)
    (hA : ∀ m : Int, sn ≤ m → m ≤ hi → ∃ og, fragAtSN old m = some og)
    (hB : ∀ (m : Int) (og og2 : Fragment), fragAtSN old m = some og →
      fragAtSN old (m + 1) = some og2 → og2.start = og.start + og.duration)
    (hC : ∀ (k : Nat) (f og : Fragment), l.get? k = some (some f) → sn + (k : Int) ≤ hi →
      fragAtSN old (sn + (k : Int)) = some og → og.duration = f.duration) :
    contiguousFrags (mergeStarts old hi sn none l).reduceOption = true := by
  cases l with
  | nil => rfl
  | cons x t =>
    cases x with
    | none => rw [snFrom] at hsn; cases hsn
    | some f =>
      rw [snFrom, Bool.and_eq_true, beq_iff_eq] at hsn
      obtain ⟨hfsn, hsnt⟩ := hsn
      obtain ⟨og, hog⟩ := hA sn le_rfl hle
      have hdur : og.duration = f.duration := by
        exact hC 0 f og (by simp [List.get?]) (by rwa [Nat.cast_zero, add_zero])
          (by rwa [Nat.cast_zero, add_zero])
      simp only [mergeStarts, if_pos hle, hog]
      rw [List.reduceOption_cons_of_some]
      apply mergeStarts_contiguous old hi t (sn + 1) _ hsnt
      · intro m hm1 hm2; exact hA m (by omega) hm2
      · exact hB
      · intro k f2 og2 hk hle2 hog2
        rw [← snCastSucc] at hle2 hog2
        exact hC (k + 1) f2 og2 (by simpa using hk) hle2 hog2
      · intro og2 h1 hog2
        have hchain := hB sn og og2 hog hog2
        show og.start + f.duration = og2.start
        rw [← hdur, ← hchain]

lemma fragments_mk (d : LevelDetails) (L : List (Option Fragment)) :
    ({ d with fragments := L } : LevelDetails).fragments = L := rfl

lemma fragAtSN_mk (d : LevelDetails) (L : List (Option Fragment)) (sn : Int) :
    fragAtSN { d with fragments := L } sn =
      if sn < d.startSN then none else (L.get? (sn - d.startSN).toNat).bind id := rfl

lemma mergeTiming_eq (old x : LevelDetails)
    (hord : old.startSN ≤ x.startSN) (hov : x.startSN ≤ min old.endSN x.endSN) :
    mergeTiming old x =
      { x with fragments :=
          mergeStarts old (min old.endSN x.endSN) x.startSN none x.fragments } := by
  simp only [mergeTiming]
  rw [if_neg (by omega), if_pos hov]

lemma mergeTiming_contiguous (old x : LevelDetails)
    (hold : fullWF old = true) (hxwf : fullWF x = true)
    (hord : old.startSN ≤ x.startSN) (hov : x.startSN ≤ min old.endSN x.endSN)
    (hcont : contiguousDetails old = true)
    (hdurx : ∀ (m : Int) (a b : Fragment), fragAtSN old m = some a →
      fragAtSN x m = some b → a.duration = b.duration) :
    snFrom x.startSN (mergeTiming old x).fragments = true ∧
    contiguousDetails (mergeTiming old x) = true := by
  obtain ⟨hlen, hsn, hend⟩ := fullWF_facts x hxwf
  rw [mergeTiming_eq old x hord hov]
  have hmin : min old.endSN x.endSN ≤ old.endSN := min_le_left _ _
  have hA : ∀ m : Int, x.startSN ≤ m → m ≤ min old.endSN x.endSN →
      ∃ og, fragAtSN old m = some og := by
    intro m h1 h2
    obtain ⟨og, hog, _⟩ := fragAtSN_some old m hold (by omega) (by omega)
    exact ⟨og, hog⟩
  have hB : ∀ (m : Int) (og og2 : Fragment), fragAtSN old m = some og →
      fragAtSN old (m + 1) = some og2 → og2.start = og.start + og.duration :=
    fun m og og2 => fragAtSN_chain old hold hcont m og og2
  have hC : ∀ (k : Nat) (f og : Fragment), x.fragments.get? k = some (some f) →
      x.startSN + (k : Int) ≤ min old.endSN x.endSN →
      fragAtSN old (x.startSN + (k : Int)) = some og → og.duration = f.duration := by
    intro k f og hk _ hog
    exact hdurx _ og f hog (fragAtSN_of_get x k f hk)
  constructor
  · exact mergeStarts_snFrom old _ x.fragments x.startSN none hsn
  · rw [contiguousDetails]
    exact mergeStarts_contiguous_top old _ x.fragments x.startSN hsn hov hA hB hC

/-! ### Reconstruction of delta updates -/

lemma phList_length (old : LevelDetails) :
    ∀ (n : Nat) (sn : Int), (phList old sn n).length = n := by
  intro n
  induction n with
  | zero => intro sn; rfl
  | succ n ih => intro sn; simp [phList, ih]

lemma phList_get (old : LevelDetails) :
    ∀ (n k : Nat) (sn : Int), k < n →
      (phList old sn n).get? k = some (fragAtSN old (sn + (k : Int))) := by
  intro n
  induction n with
  | zero => intro k sn hk; omega
  | succ n ih =>
    intro k sn hk
    cases k with
    | zero => rw [phList, Nat.cast_zero, add_zero]; rfl
    | succ k =>
      rw [phList, snCastSucc]
      simpa using ih k (sn + 1) (by omega)

lemma phList_all_isSome (old : LevelDetails) :
    ∀ (n : Nat) (sn : Int),
      (∀ k : Nat, k < n → (fragAtSN old (sn + (k : Int))).isSome = true) →
      (phList old sn n).all Option.isSome = true := by
  intro n
  induction n with
  | zero => intro sn _; rfl
  | succ n ih =>
    intro sn H
    rw [phList, List.all_cons, Bool.and_eq_true]
    constructor
    · have h0 := H 0 (Nat.succ_pos n); rwa [Nat.cast_zero, add_zero] at h0
    · apply ih (sn + 1)
      intro k hk
      rw [← snCastSucc]
      exact H (k + 1) (by omega)

lemma phList_snFrom (old : LevelDetails) :
    ∀ (n : Nat) (sn : Int),
      (∀ k : Nat, k < n → ∃ f, fragAtSN old (sn + (k : Int)) = some f ∧
        f.sn = sn + (k : Int)) →
      snFrom sn (phList old sn n) = true := by
  intro n
  induction n with
  | zero => intro sn _; rfl
  | succ n ih =>
    intro sn H
    obtain ⟨f, hf, hfsn⟩ := H 0 (Nat.succ_pos n)
    rw [Nat.cast_zero, add_zero] at hf hfsn
    rw [phList, hf, snFrom, Bool.and_eq_true, beq_iff_eq]
    refine ⟨hfsn, ?_⟩
    apply ih (sn + 1)
    intro k hk
    rw [← snCastSucc]
    exact H (k + 1) (by omega)

lemma snFrom_append :
    ∀ (l1 l2 : List (Option Fragment)) (sn : Int),
      snFrom sn l1 = true → snFrom (sn + (l1.length : Int)) l2 = true →
      snFrom sn (l1 ++ l2) = true := by
  intro l1
  induction l1 with
  | nil => intro l2 sn _ h2; simpa using h2
  | cons x t ih =>
    intro l2 sn h1 h2
    cases x with
    | none => rw [snFrom] at h1; cases h1
    | some f =>
      rw [snFrom, Bool.and_eq_true, beq_iff_eq] at h1
      rw [List.cons_append, snFrom, Bool.and_eq_true, beq_iff_eq]
      refine ⟨h1.1, ih l2 (sn + 1) h1.2 ?_⟩
      have e : (sn + 1) + (t.length : Int) = sn + (((t.length + 1 : Nat)) : Int) := by
        push_cast; ring
      rw [e]
      simpa [List.length_cons] using h2

lemma deltaFill_spec (old nw : LevelDetails) (hold : fullWF old = true)
    (hdelta : deltaWF nw = true) (hcov1 : old.startSN ≤ nw.startSN)
    (hcov2 : nw.startSN + (nw.skippedSegments : Int) - 1 ≤ old.endSN) :
    (placeholdersOf old nw).all Option.isSome = true ∧
    mergeDetails old nw = mergeTiming old
      { nw with
        fragments := placeholdersOf old nw ++ nw.fragments.drop nw.skippedSegments,
        deltaUpdateFailed := some false } ∧
    snFrom nw.startSN (placeholdersOf old nw ++ nw.fragments.drop nw.skippedSegments) = true ∧
    (placeholdersOf old nw ++ nw.fragments.drop nw.skippedSegments).length
      = nw.fragments.length ∧
    (∀ k : Nat, k < nw.skippedSegments →
      (placeholdersOf old nw ++ nw.fragments.drop nw.skippedSegments).get? k
        = some (fragAtSN old (nw.startSN + (k : Int)))) ∧
    (∀ j : Nat, nw.skippedSegments ≤ j →
      (placeholdersOf old nw ++ nw.fragments.drop nw.skippedSegments).get? j
        = nw.fragments.get? j) ∧
    fullWF { nw with
      fragments := placeholdersOf old nw ++ nw.fragments.drop nw.skippedSegments,
      deltaUpdateFailed := some false } = true := by
  obtain ⟨hpos, hlt, htake, hdrop, hend⟩ := deltaWF_facts nw hdelta
  have hcover : ∀ k : Nat, k < nw.skippedSegments →
      ∃ f, fragAtSN old (nw.startSN + (k : Int)) = some f ∧
        f.sn = nw.startSN + (k : Int) := by
    intro k hk
    exact fragAtSN_some old _ hold (by omega) (by omega)
  have hallsome : (placeholdersOf old nw).all Option.isSome = true := by
    rw [placeholdersOf]
    apply phList_all_isSome
    intro k hk
    obtain ⟨f, hf, _⟩ := hcover k hk
    rw [hf]
    rfl
  have hlen2 : (placeholdersOf old nw).length = nw.skippedSegments := by
    rw [placeholdersOf, phList_length]
  have hlenF : (placeholdersOf old nw ++ nw.fragments.drop nw.skippedSegments).length
      = nw.fragments.length := by
    rw [List.length_append, hlen2, List.length_drop]
    omega
  have hsnF : snFrom nw.startSN
      (placeholdersOf old nw ++ nw.fragments.drop nw.skippedSegments) = true := by
    apply snFrom_append
    · rw [placeholdersOf]
      exact phList_snFrom old _ _ hcover
    · rw [hlen2]
      exact hdrop
  refine ⟨hallsome, ?_, hsnF, hlenF, ?_, ?_, ?_⟩
  · simp only [mergeDetails]
    rw [if_neg (by omega), if_pos hallsome]
  · intro k hk
    rw [List.get?_append (by rw [hlen2]; exact hk), placeholdersOf,
      phList_get old _ _ _ hk]
  · intro j hj
    rw [List.get?_append_right (by rw [hlen2]; exact hj), hlen2, List.get?_drop]
    congr 1
    omega
  · rw [fullWF]
    simp only [Bool.and_eq_true, decide_eq_true_eq]
    refine ⟨⟨?_, ?_⟩, ?_⟩
    · rw [fragments_mk, hlenF]; omega
    · rw [fragments_mk]; exact hsnF
    · rw [fragments_mk, hlenF]; exact hend

lemma fragments_mk2 (d : LevelDetails) (L : List (Option Fragment)) (b : Option Bool) :
    ({ d with fragments := L, deltaUpdateFailed := b } : LevelDetails).fragments = L := rfl

lemma fragAtSN_mk2 (d : LevelDetails) (L : List (Option Fragment)) (b : Option Bool) (sn : Int) :
    fragAtSN { d with fragments := L, deltaUpdateFailed := b } sn =
      if sn < d.startSN then none else (L.get? (sn - d.startSN).toNat).bind id := rfl

/-- C3: a full (non-delta) update whose window overlaps the old snapshot's
takes the old snapshot's start time on every overlapping segment, and every
trailing segment beyond the shared window starts where its predecessor ends. -/
theorem mergeDetails_full_update (old nw : LevelDetails)
    (hold : fullWF old = true) (hnew : fullWF nw = true)
    (hskip : nw.skippedSegments = 0)
    (hord : old.startSN ≤ nw.startSN)
    (hov : nw.startSN ≤ min old.endSN nw.endSN) :
    (∀ (sn : Int) (of : Fragment), nw.startSN ≤ sn → sn ≤ min old.endSN nw.endSN →
      fragAtSN old sn = some of →
      ∃ nf, fragAtSN (mergeDetails old nw) sn = some nf ∧
        nf.start = of.start ∧ nf.sn = sn) ∧
    (∀ (k : Nat) (f g : Fragment),
      (mergeDetails old nw).fragments.get? k = some (some f) →
      (mergeDetails old nw).fragments.get? (k + 1) = some (some g) →
      min old.endSN nw.endSN < nw.startSN + (k : Int) + 1 →
      g.start = f.start + f.duration) := by
  obtain ⟨hlen, hsn, hend⟩ := fullWF_facts nw hnew
  have heq : mergeDetails old nw =
      { nw with fragments :=
          mergeStarts old (min old.endSN nw.endSN) nw.startSN none nw.fragments } := by
    rw [mergeDetails, if_pos hskip, mergeTiming_eq old nw hord hov]
  have hminr : min old.endSN nw.endSN ≤ nw.endSN := min_le_right _ _
  constructor
  · intro sn of h1 h2 hof
    have hj : (sn - nw.startSN).toNat < nw.fragments.length := by omega
    obtain ⟨f, hf, hfsn⟩ := snFrom_get nw.fragments nw.startSN _ hsn hj
    have e : nw.startSN + (((sn - nw.startSN).toNat : Nat) : Int) = sn := by omega
    have hcopy := mergeStarts_get_copy old (min old.endSN nw.endSN) nw.fragments nw.startSN
      none _ f of hf (by rw [e]; exact h2) (by rw [e]; exact hof)
    refine ⟨{ f with start := of.start }, ?_, rfl, ?_⟩
    · rw [heq, fragAtSN_mk, if_neg (by omega), hcopy]
      rfl
    · show f.sn = sn
      rw [hfsn]
      exact e
  · intro k f g hk hk1 hbeyond
    rw [heq, fragments_mk] at hk hk1
    exact mergeStarts_chain old _ nw.fragments nw.startSN none k f g hk hk1 hbeyond

/-- C3 witness: merging old sequence numbers 1..4 (starts 0, 5, 10, 15)
with new sequence numbers 2..5 yields starts 5, 10, 15, 20: the overlap takes
the old start times and the trailing segment extrapolates. -/
theorem mergeDetails_full_update_witness :
    fullWF (generatePlaylist [1,2,3,4] 0) = true ∧
    fullWF (generatePlaylist [2,3,4,5] 0) = true ∧
    (generatePlaylist [2,3,4,5] 0).skippedSegments = 0 ∧
    ((generatePlaylist [1,2,3,4] 0).startSN ≤ (generatePlaylist [2,3,4,5] 0).startSN) ∧
    ((generatePlaylist [2,3,4,5] 0).startSN ≤
      min (generatePlaylist [1,2,3,4] 0).endSN (generatePlaylist [2,3,4,5] 0).endSN) ∧
    ((∀ (sn : Int) (of : Fragment),
      (generatePlaylist [2,3,4,5] 0).startSN ≤ sn →
      sn ≤ min (generatePlaylist [1,2,3,4] 0).endSN (generatePlaylist [2,3,4,5] 0).endSN →
      fragAtSN (generatePlaylist [1,2,3,4] 0) sn = some of →
      ∃ nf, fragAtSN (mergeDetails (generatePlaylist [1,2,3,4] 0) (generatePlaylist [2,3,4,5] 0)) sn
          = some nf ∧ nf.start = of.start ∧ nf.sn = sn) ∧
    (∀ (k : Nat) (f g : Fragment),
      (mergeDetails (generatePlaylist [1,2,3,4] 0) (generatePlaylist [2,3,4,5] 0)).fragments.get? k
        = some (some f) →
      (mergeDetails (generatePlaylist [1,2,3,4] 0) (generatePlaylist [2,3,4,5] 0)).fragments.get? (k + 1)
        = some (some g) →
      min (generatePlaylist [1,2,3,4] 0).endSN (generatePlaylist [2,3,4,5] 0).endSN
        < (generatePlaylist [2,3,4,5] 0).startSN + (k : Int) + 1 →
      g.start = f.start + f.duration)) ∧
    (mergeDetails (generatePlaylist [1,2,3,4] 0) (generatePlaylist [2,3,4,5] 0)).fragments =
      (generatePlaylist [2,3,4,5] 5).fragments :=
  ⟨by decide, by decide, rfl, by decide, by decide,
    mergeDetails_full_update (generatePlaylist [1,2,3,4] 0) (generatePlaylist [2,3,4,5] 0)
      (by decide) (by decide) rfl (by decide) (by decide),
    by norm_num [mergeDetails, mergeTiming, mergeStarts, placeholdersOf, phList, fragAtSN,
      generatePlaylist, List.enum, List.enumFrom, List.get?]⟩

/-- C4: a delta update all of whose placeholder positions are covered by the
old snapshot reconstructs successfully: `deltaUpdateFailed` becomes the
defined value `false`, the length is preserved, every placeholder position
receives the old snapshot's segment (content and start time), and every
segment in the shared window carries the old snapshot's start time. -/
theorem mergeDetails_delta_success_spec (old nw : LevelDetails)
    (hold : fullWF old = true) (hdelta : deltaWF nw = true)
    (hcov1 : old.startSN ≤ nw.startSN)
    (hcov2 : nw.startSN + (nw.skippedSegments : Int) - 1 ≤ old.endSN) :
    (mergeDetails old nw).deltaUpdateFailed = some false ∧
    (mergeDetails old nw).fragments.length = nw.fragments.length ∧
    (∀ k : Nat, k < nw.skippedSegments →
      ∃ og, fragAtSN old (nw.startSN + (k : Int)) = some og ∧
        (mergeDetails old nw).fragments.get? k = some (some og)) ∧
    (∀ (sn : Int) (of : Fragment), nw.startSN ≤ sn → sn ≤ min old.endSN nw.endSN →
      fragAtSN old sn = some of →
      ∃ nf, fragAtSN (mergeDetails old nw) sn = some nf ∧
        nf.start = of.start ∧ nf.sn = sn) := by
  obtain ⟨hpos, hlt, htake, hdrop, hend⟩ := deltaWF_facts nw hdelta
  obtain ⟨hallsome, heq, hsnF, hlenF, hgetlow, hgethigh, hwfF⟩ :=
    deltaFill_spec old nw hold hdelta hcov1 hcov2
  have hov : nw.startSN ≤ min old.endSN nw.endSN := le_min (by omega) (by omega)
  have heq2 : mergeDetails old nw =
      { nw with
        fragments := mergeStarts old (min old.endSN nw.endSN) nw.startSN none
          (placeholdersOf old nw ++ nw.fragments.drop nw.skippedSegments),
        deltaUpdateFailed := some false } := by
    rw [heq]
    exact mergeTiming_eq old _ hcov1 hov
  refine ⟨?_, ?_, ?_, ?_⟩
  · rw [heq, mergeTiming_deltaUpdateFailed]
  · rw [heq2, fragments_mk2, mergeStarts_length, hlenF]
  · intro k hk
    obtain ⟨og, hog, hogsn⟩ := fragAtSN_some old (nw.startSN + (k : Int)) hold
      (by omega) (by omega)
    have hFk : (placeholdersOf old nw ++ nw.fragments.drop nw.skippedSegments).get? k
        = some (some og) := by
      rw [hgetlow k hk, hog]
    have hcopy := mergeStarts_get_copy old (min old.endSN nw.endSN) _ nw.startSN
      none k og og hFk (le_min (by omega) (by omega)) hog
    refine ⟨og, hog, ?_⟩
    rw [heq2, fragments_mk2, hcopy]
  · intro sn of h1 h2 hof
    have hminr : min old.endSN nw.endSN ≤ nw.endSN := min_le_right _ _
    have hj : (sn - nw.startSN).toNat <
        (placeholdersOf old nw ++ nw.fragments.drop nw.skippedSegments).length := by
      rw [hlenF]; omega
    obtain ⟨f, hf, hfsn⟩ := snFrom_get _ nw.startSN _ hsnF hj
    have e : nw.startSN + (((sn - nw.startSN).toNat : Nat) : Int) = sn := by omega
    have hcopy := mergeStarts_get_copy old (min old.endSN nw.endSN) _ nw.startSN
      none _ f of hf (by rw [e]; exact h2) (by rw [e]; exact hof)
    refine ⟨{ f with start := of.start }, ?_, rfl, ?_⟩
    · rw [heq2, fragAtSN_mk2, if_neg (by omega), hcopy]
      rfl
    · show f.sn = sn
      rw [hfsn]
      exact e

/-- C4 witness: the successful delta merge of the unit tests; the result is
the ten-segment snapshot over sequence numbers 3..12 whose starts continue the
old timeline from old segment 3's start (offset 10). -/
theorem mergeDetails_delta_success_spec_witness :
    fullWF (generatePlaylist [1,2,3,4,5,6,7,8,9,10] 0) = true ∧
    deltaWF newDeltaOk = true ∧
    ((generatePlaylist [1,2,3,4,5,6,7,8,9,10] 0).startSN ≤ newDeltaOk.startSN) ∧
    (newDeltaOk.startSN + (newDeltaOk.skippedSegments : Int) - 1
      ≤ (generatePlaylist [1,2,3,4,5,6,7,8,9,10] 0).endSN) ∧
    ((mergeDetails (generatePlaylist [1,2,3,4,5,6,7,8,9,10] 0) newDeltaOk).deltaUpdateFailed
      = some false) ∧
    ((mergeDetails (generatePlaylist [1,2,3,4,5,6,7,8,9,10] 0) newDeltaOk).fragments.length
      = newDeltaOk.fragments.length) ∧
    (∀ k : Nat, k < newDeltaOk.skippedSegments →
      ∃ og, fragAtSN (generatePlaylist [1,2,3,4,5,6,7,8,9,10] 0)
          (newDeltaOk.startSN + (k : Int)) = some og ∧
        (mergeDetails (generatePlaylist [1,2,3,4,5,6,7,8,9,10] 0) newDeltaOk).fragments.get? k
          = some (some og)) ∧
    (mergeDetails (generatePlaylist [1,2,3,4,5,6,7,8,9,10] 0) newDeltaOk).fragments =
      (generatePlaylist [3,4,5,6,7,8,9,10,11,12] 10).fragments :=
  ⟨by decide, by decide, by decide, by decide,
    (mergeDetails_delta_success_spec (generatePlaylist [1,2,3,4,5,6,7,8,9,10] 0) newDeltaOk
      (by decide) (by decide) (by decide) (by decide)).1,
    (mergeDetails_delta_success_spec (generatePlaylist [1,2,3,4,5,6,7,8,9,10] 0) newDeltaOk
      (by decide) (by decide) (by decide) (by decide)).2.1,
    (mergeDetails_delta_success_spec (generatePlaylist [1,2,3,4,5,6,7,8,9,10] 0) newDeltaOk
      (by decide) (by decide) (by decide) (by decide)).2.2.1,
    by norm_num [mergeDetails, mergeTiming, mergeStarts, placeholdersOf, phList, fragAtSN,
      newDeltaOk, generatePlaylist, List.enum, List.enumFrom, List.get?]⟩

/-- C9: when a merge succeeds in establishing continuity (the windows overlap
forward and, for a delta update, every placeholder is covered), the resulting
snapshot's segments are consecutively numbered from its `startSN` (hence in
strictly increasing sequence-number order) and every segment starts exactly
where its predecessor ends, the trailing extrapolated segments included;
the old snapshot is assumed continuous with durations agreeing on shared
segments. -/
theorem mergeDetails_continuity (old nw : LevelDetails)
    (hold : fullWF old = true) (hcont : contiguousDetails old = true)
    (hdur : dursAgree old nw = true)
    (hord : old.startSN ≤ nw.startSN)
    (hov : nw.startSN ≤ min old.endSN nw.endSN)
    (hcase : (nw.skippedSegments = 0 ∧ fullWF nw = true) ∨
      (deltaWF nw = true ∧ nw.startSN + (nw.skippedSegments : Int) - 1 ≤ old.endSN)) :
    snFrom nw.startSN (mergeDetails old nw).fragments = true ∧
    contiguousDetails (mergeDetails old nw) = true := by
  have hmax : max old.startSN nw.startSN = nw.startSN := max_eq_right hord
  rcases hcase with ⟨hskip, hnew⟩ | ⟨hdelta, hcov2⟩
  · obtain ⟨hlen, hsn, hend⟩ := fullWF_facts nw hnew
    have hdurx : ∀ (m : Int) (a b : Fragment), fragAtSN old m = some a →
        fragAtSN nw m = some b → a.duration = b.duration := by
      intro m a b ha hb
      obtain ⟨hm, hgb⟩ := fragAtSN_inv nw m b hb
      have hjb : (m - nw.startSN).toNat < nw.fragments.length := by
        by_contra hc
        rw [List.get?_eq_none.mpr (by omega)] at hgb
        cases hgb
      have hmo : m ≤ old.endSN := by
        by_contra hc
        rw [fragAtSN_none_of_gt old m hold (by omega)] at ha
        cases ha
      exact dursAgree_fact old nw hdur m a b (by rw [hmax]; exact hm)
        (le_min hmo (by omega)) ha hb
    rw [mergeDetails, if_pos hskip]
    exact mergeTiming_contiguous old nw hold hnew hord hov hcont hdurx
  · obtain ⟨hpos, hlt, htake, hdrop, hend⟩ := deltaWF_facts nw hdelta
    obtain ⟨hallsome, heq, hsnF, hlenF, hgetlow, hgethigh, hwfF⟩ :=
      deltaFill_spec old nw hold hdelta hord hcov2
    have hdurxF : ∀ (m : Int) (a b : Fragment), fragAtSN old m = some a →
        fragAtSN { nw with
          fragments := placeholdersOf old nw ++ nw.fragments.drop nw.skippedSegments,
          deltaUpdateFailed := some false } m = some b →
        a.duration = b.duration := by
      intro m a b ha hb
      obtain ⟨hm0, hgb0⟩ := fragAtSN_inv _ m b hb
      have hm : nw.startSN ≤ m := hm0
      have hgb : (placeholdersOf old nw ++ nw.fragments.drop nw.skippedSegments).get?
          (m - nw.startSN).toNat = some (some b) := hgb0
      have hjb : (m - nw.startSN).toNat < nw.fragments.length := by
        by_contra hc
        rw [List.get?_eq_none.mpr (by rw [hlenF]; omega)] at hgb
        cases hgb
      by_cases hsml : (m - nw.startSN).toNat < nw.skippedSegments
      · rw [hgetlow _ hsml] at hgb
        have e : nw.startSN + (((m - nw.startSN).toNat : Nat) : Int) = m := by omega
        rw [e] at hgb
        have hob : fragAtSN old m = some b := by
          injection hgb
        rw [ha] at hob
        injection hob with hab
        rw [hab]
      · rw [hgethigh _ (by omega)] at hgb
        have hbnw : fragAtSN nw m = some b := by
          rw [fragAtSN, if_neg (by omega), hgb]
          rfl
        have hmo : m ≤ old.endSN := by
          by_contra hc
          rw [fragAtSN_none_of_gt old m hold (by omega)] at ha
          cases ha
        exact dursAgree_fact old nw hdur m a b (by rw [hmax]; exact hm)
          (le_min hmo (by omega)) ha hbnw
    rw [heq]
    exact mergeTiming_contiguous old _ hold hwfF hord hov hcont hdurxF

/-- C9 witness: the successful delta merge of the unit tests produces a
snapshot with consecutively numbered segments whose timeline is continuous. -/
theorem mergeDetails_continuity_witness :
    fullWF (generatePlaylist [1,2,3,4,5,6,7,8,9,10] 0) = true ∧
    contiguousDetails (generatePlaylist [1,2,3,4,5,6,7,8,9,10] 0) = true ∧
    dursAgree (generatePlaylist [1,2,3,4,5,6,7,8,9,10] 0) newDeltaOk = true ∧
    ((generatePlaylist [1,2,3,4,5,6,7,8,9,10] 0).startSN ≤ newDeltaOk.startSN) ∧
    (newDeltaOk.startSN ≤
      min (generatePlaylist [1,2,3,4,5,6,7,8,9,10] 0).endSN newDeltaOk.endSN) ∧
    (deltaWF newDeltaOk = true ∧ newDeltaOk.startSN + (newDeltaOk.skippedSegments : Int) - 1
      ≤ (generatePlaylist [1,2,3,4,5,6,7,8,9,10] 0).endSN) ∧
    snFrom newDeltaOk.startSN
      (mergeDetails (generatePlaylist [1,2,3,4,5,6,7,8,9,10] 0) newDeltaOk).fragments = true ∧
    contiguousDetails (mergeDetails (generatePlaylist [1,2,3,4,5,6,7,8,9,10] 0) newDeltaOk)
      = true := by
  refine ⟨by decide, ?_, ?_, by decide, by decide, ⟨by decide, by decide⟩, ?_⟩
  · with_unfolding_all decide
  · with_unfolding_all decide
  · exact mergeDetails_continuity (generatePlaylist [1,2,3,4,5,6,7,8,9,10] 0) newDeltaOk
      (by decide)
      (by with_unfolding_all decide)
      (by with_unfolding_all decide)
      (by decide) (by decide) (Or.inr ⟨by decide, by decide⟩)

end HlsLevelHelper
